import Mathlib

/-!
# Verification of the supervised-classification evaluation pipeline

A shallow embedding of `supervised_classification.ipynb`: dataset loading
post-processing (`read_data`), label summarization (`outcome_values`),
feature/label extraction and the training pipeline (`classify`), metric
computation (`evaluate`), and the driver loop.

Conventions of the embedding:
* a table cell is a `Value`: a rational number, a string, or the
  missing-value marker `na` (pandas `NaN`);
* floating point arithmetic is modelled over `ℚ`;
* the library train/test split (`train_test_split(..., random_state=0)`)
  is modelled as a deterministic seed-keyed permutation of the row index
  range followed by a take/drop at `ceil(n/5)`; the pipeline's properties
  depend only on it being a seed-determined permutation;
* fallible library calls that the notebook catches are modelled with
  `Option`.
-/

/-- A cell value in a loaded table: numeric, string, or missing (`NaN`). -/
inductive Value : Type where
  | num : ℚ → Value
  | str : String → Value
  | na  : Value
deriving DecidableEq, Repr

/-- The four dataset identifiers of the `datasets` list. -/
inductive DatasetId : Type where
  | breast_cancer
  | hyperthyroidism
  | cervical_cancer
  | liver_cancer
deriving DecidableEq, Repr

/-- The order of the `datasets` list in the notebook. -/
def datasetIds : List DatasetId :=
  [.breast_cancer, .hyperthyroidism, .cervical_cancer, .liver_cancer]

/-! ## Dataset Loader post-processing (`read_data`)

The uniform tail of `read_data`:
```
data = data.apply(pd.to_numeric, errors='coerce').fillna(data)
data.replace('?', float('nan'), inplace=True)
```
File reading itself is external I/O and out of scope; the coercion
`pd.to_numeric(errors='coerce')` is parameterized by the numeric parser
`parse` (its one property used below: it does not parse the sentinel
`"?"` as a number). -/

/-- `pd.to_numeric(errors='coerce')` on one cell: numbers stay, missing
stays missing, a string becomes its parsed number or `NaN`. -/
def toNumericCell (parse : String → Option ℚ) : Value → Value
  | .num q => .num q
  | .na => .na
  | .str s =>
    match parse s with
    | some q => .num q
    | none => .na

/-- `fillna(data)` on one cell: a `NaN` in the coerced frame is filled
with the original value at the same position. -/
def fillnaCell (orig c : Value) : Value :=
  match c with
  | .na => orig
  | c => c

/-- `replace('?', float('nan'))` on one cell. -/
def replaceQCell (c : Value) : Value :=
  if c = .str "?" then .na else c

/-- The whole per-cell post-processing of `read_data`. -/
def postCell (parse : String → Option ℚ) (c : Value) : Value :=
  replaceQCell (fillnaCell c (toNumericCell parse c))

/-- The uniform post-processing of `read_data`, applied cellwise to the
loaded table. -/
def read_post (parse : String → Option ℚ) (table : List (List Value)) :
    List (List Value) :=
  table.map (List.map (postCell parse))

/-! ## Label Summarizer (`outcome_values`) -/

/-- The label column selected by `outcome_values`: column index 1 for
`breast_cancer` (`dataset[1]`), the last column otherwise
(`dataset[dataset.columns[-1]]`). -/
def labelColumn (id : DatasetId) (table : List (List Value)) : List Value :=
  match id with
  | .breast_cancer => table.map (fun r => r.getD 1 .na)
  | _ => table.map (fun r => r.getLast?.getD .na)

/-- `Series.value_counts().to_dict()`: occurrence count of each distinct
value, with missing values dropped first (pandas default `dropna=True`);
a value is a key exactly when its count is positive. -/
def value_counts (l : List Value) (v : Value) : Option ℕ :=
  let c := (l.filter (fun x => decide (x ≠ Value.na))).countP (fun x => decide (x = v))
  if c = 0 then none else some c

/-- `outcome_values(dataset_id, dataset)` as a partial mapping from label
value to count. -/
def outcome_values (id : DatasetId) (table : List (List Value)) :
    Value → Option ℕ :=
  value_counts (labelColumn id table)

/-! ## Train/test split (`train_test_split(X, y, test_size=0.2, random_state=0)`)

The library shuffles the row index range with a PRNG seeded by
`random_state` and slices off the first `ceil(0.2 * n)` shuffled indices
as the test set, the rest as the train set.  The PRNG-driven shuffle is
modelled as a deterministic, seed-keyed permutation of `List.range n`
built from rotations and reversals; every property proved below uses only
that it is a seed-determined permutation. -/

/-- A linear congruential step driving the modelled shuffle. -/
def lcg (s : ℕ) : ℕ := (1103515245 * s + 12345) % 4294967296

/-- `k` seed-driven rounds of rotate-and-reverse over a list. -/
def shuffleRounds : ℕ → ℕ → List ℕ → List ℕ
  | 0, _, l => l
  | k + 1, s, l => shuffleRounds k (lcg s) ((l.rotate (s % (l.length + 1))).reverse)

/-- The shuffled row index sequence for `n` rows under `seed`. -/
def shuffledIndices (seed n : ℕ) : List ℕ :=
  shuffleRounds 8 (lcg (seed + n)) (List.range n)

/-- `ceil(test_size * n)` with `test_size = 0.2`. -/
def testCount (n : ℕ) : ℕ := (n + 4) / 5

/-- Row indices assigned to the test set: the first `testCount n` shuffled
indices. -/
def testIdx (seed n : ℕ) : List ℕ := (shuffledIndices seed n).take (testCount n)

/-- Row indices assigned to the train set: the remaining shuffled indices. -/
def trainIdx (seed n : ℕ) : List ℕ := (shuffledIndices seed n).drop (testCount n)

/-- Row selection by index list (with an out-of-range default, never hit
on in-range index lists). -/
def select {α : Type} (l : List α) (idxs : List ℕ) (d : α) : List α :=
  idxs.map (fun i => l.getD i d)

/-! ## Missing-value imputation (`SimpleImputer(missing_values=nan, strategy='mean')`)

A feature matrix after `.values.tolist()` is a `Mat`: rows of
`Option ℚ` cells, `none` standing for `NaN`.  (A string-valued feature
cell is a fatal misconfiguration in the pipeline — the classifier fit
would fail, per spec §4.4 — so the feature-cell embedding maps it to
missing; no theorem below depends on that corner.)  `fit` records the
per-column mean over observed entries; a column with no observed entry
gets no statistic and is dropped by `transform`, matching the library. -/

/-- A feature matrix: `none` is a missing cell (`NaN`). -/
def Mat : Type := List (List (Option ℚ))

/-- Number of feature columns (rectangular table, read off the first row). -/
def ncols (X : Mat) : ℕ := (List.headD X []).length

/-- The observed (non-missing) entries of column `j`. -/
def colObs (X : Mat) (j : ℕ) : List ℚ :=
  X.filterMap (fun r => r.getD j none)

/-- The fitted statistic of column `j`: the mean of its observed entries,
or `none` when the column has no observed entry. -/
def colMean (X : Mat) (j : ℕ) : Option ℚ :=
  let obs := colObs X j
  if obs = [] then none else some (obs.sum / obs.length)

/-- `imputer.fit(X)`: the per-column statistics. -/
def fitMeans (X : Mat) : List (Option ℚ) :=
  (List.range (ncols X)).map (colMean X)

/-- `imputer.transform` on one row: columns without a statistic are
dropped; in the others a missing cell is filled with the fitted mean. -/
def transformRow (means : List (Option ℚ)) (r : List (Option ℚ)) : List ℚ :=
  (List.range means.length).filterMap
    (fun j => (means.getD j none).map (fun mj => (r.getD j none).getD mj))

/-- `imputer.transform` on a matrix. -/
def transform (means : List (Option ℚ)) (X : Mat) : List (List ℚ) :=
  X.map (transformRow means)

/-- The train-set rows of a feature matrix, as split inside `classify`
(`random_state=0` is hard-coded there). -/
def pipelineTrain (X : Mat) : Mat := select X (trainIdx 0 X.length) []

/-- The test-set rows of a feature matrix, as split inside `classify`. -/
def pipelineTest (X : Mat) : Mat := select X (testIdx 0 X.length) []

/-- The imputation statistics fitted inside `classify`:
`imputer.fit(X_train)`. -/
def pipelineMeans (X : Mat) : List (Option ℚ) := fitMeans (pipelineTrain X)

/-- The pair of imputed matrices produced inside `classify`:
`X_train = imputer.transform(X_train); X_test = imputer.transform(X_test)`. -/
def pipelineImputed (X : Mat) : List (List ℚ) × List (List ℚ) :=
  (transform (pipelineMeans X) (pipelineTrain X),
   transform (pipelineMeans X) (pipelineTest X))

/-! ## Feature/Label extraction inside `classify`

The notebook's `y = dataset.iloc[:, -1:].values.tolist()` yields a list
of one-element lists (a one-column matrix), while
`y = dataset[1].values.tolist()` (breast cancer) and
`model.predict(...).tolist()` yield bare values.  `YCell` captures that
dynamic shape distinction. -/

/-- A label-sequence element as Python produces it: a bare value, or a
one-column row (list) wrapping values. -/
inductive YCell : Type where
  | bare : Value → YCell
  | wrap : List Value → YCell
deriving DecidableEq, Repr

/-- `replace({'F': 0, 'M': 1, 'f': 0, 't': 1})` on one cell
(hyperthyroidism branch). -/
def replaceFMft (c : Value) : Value :=
  if c = .str "F" then .num 0
  else if c = .str "M" then .num 1
  else if c = .str "f" then .num 0
  else if c = .str "t" then .num 1
  else c

/-- `replace({'Female': 0, 'Male': 1})` on one cell (liver branch). -/
def replaceGender (c : Value) : Value :=
  if c = .str "Female" then .num 0
  else if c = .str "Male" then .num 1
  else c

/-- The second-to-last cell of a row (`iloc[:, -2]`). -/
def penultimate (r : List Value) : Value := r.getD (r.length - 2) .na

/-- `pd.get_dummies` categories of a column: its distinct non-missing
values.  (pandas orders the indicator columns by sorted category; the
embedding uses first-occurrence order, which no theorem depends on.) -/
def dummyCats (col : List Value) : List Value :=
  (col.filter (fun x => decide (x ≠ Value.na))).dedup

/-- `pd.concat([dataset.iloc[:,:-2], pd.get_dummies(dataset.iloc[:,-2]),
dataset.iloc[:,-1]], axis=1)` followed by the `F/M/f/t` replacement:
the transformed hyperthyroidism table. -/
def hyperTable (table : List (List Value)) : List (List Value) :=
  let cats := dummyCats (table.map penultimate)
  table.map (fun r =>
    ((r.take (r.length - 2) ++
      cats.map (fun v => if penultimate r = v then Value.num 1 else Value.num 0) ++
      [r.getLast?.getD .na]).map replaceFMft))

/-- The table `classify` slices its features and labels from, after the
dataset-specific additional preprocessing. -/
def classifyTable (id : DatasetId) (table : List (List Value)) :
    List (List Value) :=
  match id with
  | .hyperthyroidism => hyperTable table
  | .liver_cancer => table.map (List.map replaceGender)
  | _ => table

/-- The raw feature rows sliced by `classify`: all but the label column
(`drop(1, axis=1)` for breast cancer, `iloc[:, :-1]` otherwise). -/
def extractX (id : DatasetId) (table : List (List Value)) :
    List (List Value) :=
  match id with
  | .breast_cancer => table.map (fun r => r.eraseIdx 1)
  | _ => (classifyTable id table).map (fun r => r.dropLast)

/-- The label sequence sliced by `classify`: bare column values for
breast cancer (`dataset[1].values.tolist()`), one-element row lists
otherwise (`iloc[:, -1:].values.tolist()`). -/
def extractY (id : DatasetId) (table : List (List Value)) : List YCell :=
  match id with
  | .breast_cancer => table.map (fun r => YCell.bare (r.getD 1 .na))
  | _ => (classifyTable id table).map (fun r => YCell.wrap [r.getLast?.getD .na])

/-- A feature cell as fed to the imputer: numbers observed, `NaN`
missing.  (A string here would be a fatal error downstream; see the
imputation section note.) -/
def featCell : Value → Option ℚ
  | .num q => some q
  | _ => none

/-- An external classifier at the library boundary (spec §6):
`fit(train_features, train_labels)` produces fresh internal state from
scratch — sklearn's `fit` re-estimates and overwrites any previously
fitted state — and `predict` is pure given that state, returning bare
label values. -/
structure Classifier (σ : Type) where
  fitF : List (List ℚ) → List YCell → σ
  predictF : σ → List (List ℚ) → List Value

/-- `classify(dataset_id, dataset)` with the global `model` made
explicit: takes the shared classifier instance's current fitted state,
returns `(predictions, actual)` together with the instance's new fitted
state.  Mirrors the notebook line by line: extract, split with
`random_state=0`, fit imputer on the train rows, transform both, fit,
predict. -/
def classifyRun {σ : Type} (c : Classifier σ) (_st : Option σ)
    (id : DatasetId) (table : List (List Value)) :
    (List Value × List YCell) × Option σ :=
  let X : Mat := (extractX id table).map (List.map featCell)
  let y : List YCell := extractY id table
  let n : ℕ := X.length
  let yTrain := select y (trainIdx 0 n) (YCell.bare .na)
  let yTest := select y (testIdx 0 n) (YCell.bare .na)
  let imputed := pipelineImputed X
  let s : σ := c.fitF imputed.1 yTrain
  ((c.predictF s imputed.2, yTest), some s)

/-- `classify` as called by the driver (result pair only). -/
def classify {σ : Type} (c : Classifier σ) (st : Option σ)
    (id : DatasetId) (table : List (List Value)) :
    List Value × List YCell :=
  (classifyRun c st id table).1

/-! ## Evaluator (`evaluate(labels, gold, predictions)`)

The sklearn metric calls are embedded over bare label sequences (the
library ravels a one-column `y` before comparing).  `precision_score`,
`recall_score` and `f1_score` with the default `average='binary'` and
`pos_label=l` succeed exactly when the values present in `gold`/`pred`
form at most a binary target and `pos_label` is valid for it; otherwise
they raise, the notebook's bare `except:` catches, and the macro-averaged
scores are computed instead.  `ℚ` division by zero is `0`, which matches
the library's zero-division → 0.0 convention (warnings are suppressed in
the notebook). -/

/-- `np.ravel` on a label sequence: a one-column row contributes its
single entry. -/
def ravel (y : List YCell) : List Value :=
  y.map (fun a => match a with | .bare v => v | .wrap vs => vs.getD 0 .na)

/-- The distinct label values present in `gold` and `pred` together. -/
def presentLabels (gold pred : List Value) : List Value :=
  (gold ++ pred).dedup

/-- True positives for positive class `l`. -/
def truePos (gold pred : List Value) (l : Value) : ℕ :=
  (gold.zip pred).countP (fun p => decide (p.1 = l ∧ p.2 = l))

/-- Number of predicted positives for class `l`. -/
def predPos (pred : List Value) (l : Value) : ℕ :=
  pred.countP (fun x => decide (x = l))

/-- Number of actual positives for class `l`. -/
def actualPos (gold : List Value) (l : Value) : ℕ :=
  gold.countP (fun x => decide (x = l))

/-- `precision_score(gold, pred, pos_label=l)` for a binary target
(0 when no positive prediction exists). -/
def precision_score (gold pred : List Value) (l : Value) : ℚ :=
  (truePos gold pred l : ℚ) / (predPos pred l : ℚ)

/-- `recall_score(gold, pred, pos_label=l)` for a binary target. -/
def recall_score (gold pred : List Value) (l : Value) : ℚ :=
  (truePos gold pred l : ℚ) / (actualPos gold l : ℚ)

/-- `f1_score(gold, pred, pos_label=l)` for a binary target:
`2*tp / (2*tp + fp + fn)`, i.e. `2*tp / (predPos + actualPos)`. -/
def f1_score (gold pred : List Value) (l : Value) : ℚ :=
  (2 * truePos gold pred l : ℚ) / ((predPos pred l + actualPos gold l : ℕ) : ℚ)

/-- Macro average of a per-class score over the classes present. -/
def macroAvg (score : Value → ℚ) (gold pred : List Value) : ℚ :=
  ((presentLabels gold pred).map score).sum / ((presentLabels gold pred).length : ℚ)

/-- `precision_score(..., average='macro')`. -/
def macroPrecision (gold pred : List Value) : ℚ :=
  macroAvg (precision_score gold pred) gold pred

/-- `recall_score(..., average='macro')`. -/
def macroRecall (gold pred : List Value) : ℚ :=
  macroAvg (recall_score gold pred) gold pred

/-- `f1_score(..., average='macro')`. -/
def macroF1 (gold pred : List Value) : ℚ :=
  macroAvg (f1_score gold pred) gold pred

/-- Python `round(x, 2)`. -/
def round2 (q : ℚ) : ℚ := ((round (100 * q) : ℤ) : ℚ) / 100

/-- A value carrying at most two decimal places: an integer number of
hundredths. -/
def Is2dp (q : ℚ) : Prop := ∃ n : ℤ, 100 * q = (n : ℚ)

/-- The `try:` block body for one label: the binary-target metric triple,
rounded — or `none` when the library raises (`ValueError`: more than two
values present, or `pos_label` invalid for a two-valued target), which
the notebook's bare `except:` turns into the macro fallback. -/
def tryBinary (gold pred : List Value) (l : Value) : Option (ℚ × ℚ × ℚ) :=
  let present := presentLabels gold pred
  if present.length ≤ 2 ∧ (l ∈ present ∨ present.length ≤ 1) then
    some (round2 (precision_score gold pred l),
          round2 (recall_score gold pred l),
          round2 (f1_score gold pred l))
  else none

/-- The `except:` fallback triple: macro-averaged scores, rounded
(`pos_label` is ignored under `average='macro'`). -/
def macroTriple (gold pred : List Value) : ℚ × ℚ × ℚ :=
  (round2 (macroPrecision gold pred),
   round2 (macroRecall gold pred),
   round2 (macroF1 gold pred))

/-- The metric triple stored under one label key. -/
def labelEntry (gold pred : List Value) (l : Value) : ℚ × ℚ × ℚ :=
  (tryBinary gold pred l).getD (macroTriple gold pred)

/-- `accuracy_score(gold, predictions)`: fraction of agreeing positions
(not rounded anywhere in the notebook). -/
def accuracy_score (gold pred : List Value) : ℚ :=
  ((gold.zip pred).countP (fun p => decide (p.1 = p.2)) : ℚ) / (gold.length : ℚ)

/-- The `evaluation` dict built by `evaluate`. -/
structure Evaluation : Type where
  accuracy : ℚ
  perLabel : List (Value × (ℚ × ℚ × ℚ))
deriving DecidableEq, Repr

/-- `evaluate(labels, gold, predictions)`. -/
def evaluate (labels gold pred : List Value) : Evaluation :=
  { accuracy := accuracy_score gold pred
    perLabel := labels.map (fun l => (l, labelEntry gold pred l)) }

/-- Lookup of one label's metric triple in an evaluation result. -/
def lookupMetric (e : Evaluation) (l : Value) : Option (ℚ × ℚ × ℚ) :=
  (e.perLabel.find? (fun p => decide (p.1 = l))).map Prod.snd

/-! ## Driver loop

`classifiers` is a dict built once, before the loop: one classifier
instance per kind, created at its position in the dict literal.  The
driver iterates datasets × classifiers, and `classify` reads the loop
variable `model`, so run `(d, c)` uses the instance created for kind `c`
in the dict — the same object for every dataset `d`. -/

/-- The four classifier kinds of the `classifiers` dict, in dict order. -/
inductive ClassifierKind : Type where
  | decisionTree
  | knn
  | naiveBayes
  | svm
deriving DecidableEq, Repr

/-- Dict order of `classifiers`. -/
def classifierKinds : List ClassifierKind :=
  [.decisionTree, .knn, .naiveBayes, .svm]

/-- The identity of the one instance the `classifiers` dict literal
creates for each kind (its creation position). -/
def instanceOf : ClassifierKind → ℕ
  | .decisionTree => 0
  | .knn => 1
  | .naiveBayes => 2
  | .svm => 3

/-- The driver's runs, in execution order: for each dataset, for each
classifier kind, the run together with the identity of the classifier
instance bound to `model` during that run. -/
def driverRuns : List (DatasetId × ClassifierKind × ℕ) :=
  (datasetIds.map (fun d => classifierKinds.map (fun c => (d, c, instanceOf c)))).flatten

/-- One driver iteration for a fixed dataset: `classify` then `evaluate`
(the driver passes `actual` — one-column rows for most datasets — which
the metric library ravels). -/
def runOnce {σ : Type} (c : Classifier σ) (st : Option σ)
    (labels : List Value) (id : DatasetId) (table : List (List Value)) :
    (List Value × List YCell × Evaluation) × Option σ :=
  let r := classifyRun c st id table
  ((r.1.1, r.1.2, evaluate labels (ravel r.1.2) r.1.1), r.2)

/-! ## Helper lemmas -/

theorem shuffleRounds_perm (k : ℕ) : ∀ (s : ℕ) (l : List ℕ),
    (shuffleRounds k s l).Perm l := by
  induction k with
  | zero => intro s l; simp [shuffleRounds]
  | succ k ih =>
    intro s l
    have h1 : (shuffleRounds (k + 1) s l) =
        shuffleRounds k (lcg s) ((l.rotate (s % (l.length + 1))).reverse) := rfl
    rw [h1]
    exact ((ih _ _).trans ((l.rotate _).reverse_perm)).trans (l.rotate_perm _)

theorem shuffledIndices_perm (seed n : ℕ) :
    (shuffledIndices seed n).Perm (List.range n) :=
  shuffleRounds_perm 8 _ _

theorem length_shuffledIndices (seed n : ℕ) :
    (shuffledIndices seed n).length = n := by
  have h := (shuffledIndices_perm seed n).length_eq
  simpa using h

theorem mem_shuffledIndices (seed n i : ℕ) :
    i ∈ shuffledIndices seed n ↔ i < n := by
  rw [(shuffledIndices_perm seed n).mem_iff, List.mem_range]

theorem testCount_le (n : ℕ) : testCount n ≤ n := by
  unfold testCount; omega

theorem length_testIdx (seed n : ℕ) :
    (testIdx seed n).length = testCount n := by
  unfold testIdx
  rw [List.length_take, length_shuffledIndices]
  exact Nat.min_eq_left (testCount_le n)

theorem length_trainIdx (seed n : ℕ) :
    (trainIdx seed n).length = n - testCount n := by
  unfold trainIdx
  rw [List.length_drop, length_shuffledIndices]

theorem mem_testIdx_lt {seed n i : ℕ} (h : i ∈ testIdx seed n) : i < n := by
  rw [← mem_shuffledIndices seed n]
  exact List.mem_of_mem_take h

theorem mem_trainIdx_lt {seed n i : ℕ} (h : i ∈ trainIdx seed n) : i < n := by
  rw [← mem_shuffledIndices seed n]
  exact List.mem_of_mem_drop h

theorem count_test_add_train {seed n i : ℕ} (hi : i < n) :
    (testIdx seed n).count i + (trainIdx seed n).count i = 1 := by
  have hsplit : testIdx seed n ++ trainIdx seed n = shuffledIndices seed n :=
    List.take_append_drop _ _
  have hcount : (shuffledIndices seed n).count i = 1 := by
    rw [(shuffledIndices_perm seed n).count_eq]
    exact List.count_eq_one_of_mem (List.nodup_range n) (List.mem_range.mpr hi)
  calc (testIdx seed n).count i + (trainIdx seed n).count i
      = (testIdx seed n ++ trainIdx seed n).count i := (List.count_append _ _ _).symm
    _ = 1 := by rw [hsplit, hcount]

theorem nodup_all_eq_length_le_one {α : Type} {l : List α} {o : α}
    (hnd : l.Nodup) (h : ∀ x ∈ l, x = o) : l.length ≤ 1 := by
  match l, hnd with
  | [], _ => simp
  | [x], _ => simp
  | x :: y :: t, hnd =>
    exfalso
    have hx : x = o := h x (by simp)
    have hy : y = o := h y (by simp)
    have : x ≠ y := by
      intro hxy
      exact (List.nodup_cons.mp hnd).1 (hxy ▸ List.mem_cons_self _ _)
    exact this (hx.trans hy.symm)

theorem is2dp_round2 (q : ℚ) : Is2dp (round2 q) := by
  refine ⟨round (100 * q), ?_⟩
  unfold round2
  field_simp

theorem round2_zero : round2 0 = 0 := by
  unfold round2
  norm_num

theorem round2_one : round2 1 = 1 := by
  unfold round2
  norm_num

theorem mem_driverRuns {d : DatasetId} {c : ClassifierKind} {i : ℕ}
    (h : (d, c, i) ∈ driverRuns) : i = instanceOf c := by
  unfold driverRuns at h
  rcases List.mem_flatten.mp h with ⟨l, hl, hmem⟩
  rcases List.mem_map.mp hl with ⟨d', _, rfl⟩
  rcases List.mem_map.mp hmem with ⟨c', _, heq⟩
  injection heq with _ h2
  injection h2 with h3 h4
  rw [← h4, h3]

theorem instanceOf_inj {c₁ c₂ : ClassifierKind}
    (h : instanceOf c₁ = instanceOf c₂) : c₁ = c₂ := by
  cases c₁ <;> cases c₂ <;> simp_all [instanceOf]

/-! ## Claim theorems -/

/-- C9: after the loader's uniform post-processing, every cell of the
returned table is either the numeric coercion of its original value (when
coercion succeeds), the unchanged original value (when coercion fails and
the value is not the sentinel), or the missing-value marker (when the
original cell is the literal sentinel `?`); the processing is the same
cellwise map for every dataset identifier. -/
theorem read_post_cell_trichotomy (parse : String → Option ℚ)
    (table : List (List Value)) (c : Value)
    (hq : parse "?" = none) :
    read_post parse table = table.map (List.map (postCell parse))
    ∧ (c = .str "?" → postCell parse c = .na)
    ∧ (∀ s q, c = .str s → parse s = some q → postCell parse c = .num q)
    ∧ (∀ s, c = .str s → s ≠ "?" → parse s = none → postCell parse c = c)
    ∧ ((∀ s, c ≠ .str s) → postCell parse c = c) := by
  refine ⟨rfl, ?_, ?_, ?_, ?_⟩
  · rintro rfl
    simp [postCell, toNumericCell, fillnaCell, replaceQCell, hq]
  · rintro s q rfl hs
    have hsq : s ≠ "?" := by
      rintro rfl
      rw [hq] at hs
      exact Option.noConfusion hs
    simp [postCell, toNumericCell, fillnaCell, replaceQCell, hs]
  · rintro s rfl hs hn
    simp [postCell, toNumericCell, fillnaCell, replaceQCell, hn, hs]
  · intro hns
    cases c with
    | num q => simp [postCell, toNumericCell, fillnaCell, replaceQCell]
    | na => simp [postCell, toNumericCell, fillnaCell, replaceQCell]
    | str s => exact absurd rfl (hns s)

/-- Witness for C9 at a concrete parser, table and cell. -/
theorem read_post_cell_trichotomy_witness :
    (fun s => if s = "3" then some (3 : ℚ) else none) "?" = none
    ∧ (read_post (fun s => if s = "3" then some (3 : ℚ) else none)
          [[Value.str "?"]]
          = [[Value.str "?"]].map (List.map (postCell (fun s => if s = "3" then some (3 : ℚ) else none)))
        ∧ (Value.str "?" = .str "?" → postCell (fun s => if s = "3" then some (3 : ℚ) else none) (Value.str "?") = .na)
        ∧ (∀ s q, Value.str "?" = .str s → (if s = "3" then some (3 : ℚ) else none) = some q → postCell (fun s => if s = "3" then some (3 : ℚ) else none) (Value.str "?") = .num q)
        ∧ (∀ s, Value.str "?" = .str s → s ≠ "?" → (if s = "3" then some (3 : ℚ) else none) = none → postCell (fun s => if s = "3" then some (3 : ℚ) else none) (Value.str "?") = Value.str "?")
        ∧ ((∀ s, Value.str "?" ≠ .str s) → postCell (fun s => if s = "3" then some (3 : ℚ) else none) (Value.str "?") = Value.str "?")) :=
  ⟨by simp, read_post_cell_trichotomy _ [[Value.str "?"]] (Value.str "?") (by simp)⟩

/-- C4 counterexample: a row whose label is the missing marker is
silently dropped by `outcome_values` (pandas `value_counts` default
`dropna=True`): on a one-row liver dataset whose label cell is missing,
the label column counts one missing entry, yet the returned mapping has
no key for the marker. -/
theorem outcome_values_drops_missing :
    (labelColumn .liver_cancer [[Value.num 1, Value.na]]).countP
        (fun x => decide (x = Value.na)) = 1
    ∧ outcome_values .liver_cancer [[Value.num 1, Value.na]] Value.na = none := by
  decide

/-- C4 (amended): for every dataset, `outcome_values` returns, for each
distinct non-missing value of the label column (column index 1 for
breast_cancer, the last column otherwise), its exact occurrence count
over all rows; rows whose label is the missing marker are dropped, and
the marker never appears as a key. -/
theorem outcome_values_exact_counts (id : DatasetId)
    (table : List (List Value)) (v : Value) (hv : v ≠ .na) :
    outcome_values id table v =
      (if (labelColumn id table).countP (fun x => decide (x = v)) = 0 then none
       else some ((labelColumn id table).countP (fun x => decide (x = v))))
    ∧ outcome_values id table .na = none := by
  constructor
  · unfold outcome_values value_counts
    have h : ((labelColumn id table).filter (fun x => decide (x ≠ Value.na))).countP
          (fun x => decide (x = v))
        = (labelColumn id table).countP (fun x => decide (x = v)) := by
      rw [List.countP_filter]
      refine List.countP_congr ?_
      intro x _
      constructor
      · intro hx
        simp only [Bool.and_eq_true, decide_eq_true_eq] at hx
        simp [hx.1]
      · intro hx
        simp only [decide_eq_true_eq] at hx
        subst hx
        simp [hv]
    rw [h]
  · unfold outcome_values value_counts
    have h : ((labelColumn id table).filter (fun x => decide (x ≠ Value.na))).countP
          (fun x => decide (x = Value.na)) = 0 := by
      rw [List.countP_filter]
      refine List.countP_eq_zero.mpr ?_
      intro a _
      simp
    simp [h]

/-- Witness for C4 at a concrete dataset and label value. -/
theorem outcome_values_exact_counts_witness :
    Value.str "x" ≠ Value.na
    ∧ (outcome_values .liver_cancer [[Value.num 1, Value.str "x"]] (Value.str "x") =
        (if (labelColumn .liver_cancer [[Value.num 1, Value.str "x"]]).countP
              (fun x => decide (x = Value.str "x")) = 0 then none
         else some ((labelColumn .liver_cancer [[Value.num 1, Value.str "x"]]).countP
              (fun x => decide (x = Value.str "x"))))
        ∧ outcome_values .liver_cancer [[Value.num 1, Value.str "x"]] Value.na = none) :=
  ⟨by decide, outcome_values_exact_counts .liver_cancer [[Value.num 1, Value.str "x"]]
      (Value.str "x") (by decide)⟩

/-- C3 counterexample: the driver does reuse classifier instances across
dataset iterations.  The `classifiers` dict creates one instance per kind
before the loop; the breast-cancer decision-tree run and the
hyperthyroidism decision-tree run both use the instance created at
position 0, so the instance identities of the sixteen runs are not
pairwise distinct. -/
theorem driver_reuses_instances :
    (DatasetId.breast_cancer, ClassifierKind.decisionTree, 0) ∈ driverRuns
    ∧ (DatasetId.hyperthyroidism, ClassifierKind.decisionTree, 0) ∈ driverRuns
    ∧ ¬ (driverRuns.map (fun r => r.2.2)).Nodup := by
  decide

/-- C3 (amended): each of the four classifier instances is created once,
before the driver loop, and the run for dataset `d` with classifier kind
`c` always uses the single instance created for `c` — the same instance
for every dataset — while runs with distinct classifier kinds never share
an instance. -/
theorem driver_instance_sharing :
    (∀ (d₁ d₂ : DatasetId) (c : ClassifierKind) (i₁ i₂ : ℕ),
      (d₁, c, i₁) ∈ driverRuns → (d₂, c, i₂) ∈ driverRuns → i₁ = i₂)
    ∧ (∀ (d₁ d₂ : DatasetId) (c₁ c₂ : ClassifierKind) (i₁ i₂ : ℕ),
      (d₁, c₁, i₁) ∈ driverRuns → (d₂, c₂, i₂) ∈ driverRuns → c₁ ≠ c₂ → i₁ ≠ i₂) := by
  constructor
  · intro d₁ d₂ c i₁ i₂ h₁ h₂
    rw [mem_driverRuns h₁, mem_driverRuns h₂]
  · intro d₁ d₂ c₁ c₂ i₁ i₂ h₁ h₂ hne hi
    rw [mem_driverRuns h₁, mem_driverRuns h₂] at hi
    exact hne (instanceOf_inj hi)

/-- Witness for C3 at concrete runs. -/
theorem driver_instance_sharing_witness : (1 : ℕ) = 1 ∧ (1 : ℕ) ≠ 0 :=
  ⟨driver_instance_sharing.1 .breast_cancer .liver_cancer .knn 1 1
      (by decide) (by decide),
   driver_instance_sharing.2 .breast_cancer .breast_cancer .knn .decisionTree 1 0
      (by decide) (by decide) (by decide)⟩

/-- C7: the train/test partition used by the pipeline satisfies the
partition law — train-row count plus test-row count equals the total row
count, the two index sets are disjoint, and together they cover every
original row exactly once — with a 20% (`ceil(n/5)`) test share; and
because `classify` hard-codes the same seed (`random_state=0`) for every
run, the partition (hence the returned actual test-label sequence) of a
given dataset is identical across classifiers. -/
theorem split_partition_law (n i : ℕ) (hi : i < n) :
    (trainIdx 0 n).length + (testIdx 0 n).length = n
    ∧ (testIdx 0 n).length = (n + 4) / 5
    ∧ (testIdx 0 n).count i + (trainIdx 0 n).count i = 1
    ∧ (i ∈ trainIdx 0 n → i ∉ testIdx 0 n)
    ∧ (i ∈ testIdx 0 n ∨ i ∈ trainIdx 0 n)
    ∧ (∀ {σ₁ σ₂ : Type} (c₁ : Classifier σ₁) (c₂ : Classifier σ₂)
        (st₁ : Option σ₁) (st₂ : Option σ₂) (id : DatasetId)
        (table : List (List Value)),
        (classify c₁ st₁ id table).2 = (classify c₂ st₂ id table).2) := by
  have hcount : (testIdx 0 n).count i + (trainIdx 0 n).count i = 1 :=
    count_test_add_train hi
  refine ⟨?_, ?_, hcount, ?_, ?_, ?_⟩
  · rw [length_trainIdx, length_testIdx]
    have := testCount_le n
    omega
  · rw [length_testIdx]; rfl
  · intro htr hte
    have h1 : 0 < (trainIdx 0 n).count i := List.count_pos_iff.mpr htr
    have h2 : 0 < (testIdx 0 n).count i := List.count_pos_iff.mpr hte
    omega
  · by_contra hcon
    push_neg at hcon
    have h1 : (testIdx 0 n).count i = 0 := List.count_eq_zero.mpr hcon.1
    have h2 : (trainIdx 0 n).count i = 0 := List.count_eq_zero.mpr hcon.2
    omega
  · intro σ₁ σ₂ c₁ c₂ st₁ st₂ id table
    rfl

/-- Witness for C7 at a concrete row count and row index. -/
theorem split_partition_law_witness :
    (2 : ℕ) < 5
    ∧ ((trainIdx 0 5).length + (testIdx 0 5).length = 5
        ∧ (testIdx 0 5).length = (5 + 4) / 5
        ∧ (testIdx 0 5).count 2 + (trainIdx 0 5).count 2 = 1
        ∧ (2 ∈ trainIdx 0 5 → 2 ∉ testIdx 0 5)
        ∧ (2 ∈ testIdx 0 5 ∨ 2 ∈ trainIdx 0 5)
        ∧ (∀ {σ₁ σ₂ : Type} (c₁ : Classifier σ₁) (c₂ : Classifier σ₂)
            (st₁ : Option σ₁) (st₂ : Option σ₂) (id : DatasetId)
            (table : List (List Value)),
            (classify c₁ st₁ id table).2 = (classify c₂ st₂ id table).2)) :=
  ⟨by decide, split_partition_law 5 2 (by decide)⟩

/-- C8: running the full pipeline (split, impute, fit, predict, evaluate)
a second time with the same seed on the same dataset and classifier —
starting from whatever fitted state the first run left in the shared
classifier instance — produces identical predictions, identical actual
test labels, and an identical evaluation metric mapping: the library
`fit` re-estimates from scratch, so the carried state is overwritten, and
every other stage is a pure function of the inputs. -/
theorem pipeline_two_run_deterministic {σ : Type} (c : Classifier σ)
    (st : Option σ) (labels : List Value) (id : DatasetId)
    (table : List (List Value)) :
    (runOnce c (runOnce c st labels id table).2 labels id table).1
      = (runOnce c st labels id table).1 := rfl

theorem length_extract (id : DatasetId) (table : List (List Value)) :
    (extractY id table).length = (extractX id table).length := by
  cases id <;> simp [extractX, extractY, classifyTable, hyperTable]

theorem mem_select {α : Type} {l : List α} {idxs : List ℕ} {d a : α}
    (ha : a ∈ select l idxs d) (hb : ∀ i ∈ idxs, i < l.length) : a ∈ l := by
  rcases List.mem_map.mp ha with ⟨i, hi, rfl⟩
  have hlt := hb i hi
  rw [List.getD_eq_getElem?_getD, List.getElem?_eq_getElem hlt]
  exact List.getElem_mem hlt

/-- C10: for every dataset identifier except breast_cancer, each element
of the actual-labels sequence returned by `classify` is a one-element
list wrapping the test label (the label column is sliced as a one-column
matrix, `iloc[:, -1:]`), whereas each element of the predictions sequence
is a bare label value (`model.predict(...).tolist()`, enforced here by
`Classifier.predictF`'s result type `List Value`); only for breast_cancer
is the actual sequence also composed of bare label values
(`dataset[1].values.tolist()`). -/
theorem classify_actual_shape {σ : Type} (c : Classifier σ) (st : Option σ)
    (id : DatasetId) (table : List (List Value)) :
    (id ≠ .breast_cancer →
      ∀ a ∈ (classify c st id table).2, ∃ v, a = YCell.wrap [v])
    ∧ (id = .breast_cancer →
      ∀ a ∈ (classify c st id table).2, ∃ v, a = YCell.bare v) := by
  have hsub : ∀ a ∈ (classify c st id table).2, a ∈ extractY id table := by
    intro a ha
    have ha' : a ∈ select (extractY id table)
        (testIdx 0 ((extractX id table).map (List.map featCell)).length)
        (YCell.bare .na) := ha
    refine mem_select ha' ?_
    intro i hi
    have hlt := mem_testIdx_lt hi
    rw [List.length_map] at hlt
    rw [length_extract]
    exact hlt
  constructor
  · intro hne a ha
    have hmem := hsub a ha
    cases id with
    | breast_cancer => exact absurd rfl hne
    | hyperthyroidism =>
      simp only [extractY] at hmem
      rcases List.mem_map.mp hmem with ⟨r, _, rfl⟩
      exact ⟨_, rfl⟩
    | cervical_cancer =>
      simp only [extractY] at hmem
      rcases List.mem_map.mp hmem with ⟨r, _, rfl⟩
      exact ⟨_, rfl⟩
    | liver_cancer =>
      simp only [extractY] at hmem
      rcases List.mem_map.mp hmem with ⟨r, _, rfl⟩
      exact ⟨_, rfl⟩
  · rintro rfl a ha
    have hmem := hsub a ha
    simp only [extractY] at hmem
    rcases List.mem_map.mp hmem with ⟨r, _, rfl⟩
    exact ⟨_, rfl⟩

/-- Witness for C10 at a concrete classifier and dataset. -/
theorem classify_actual_shape_witness :
    DatasetId.liver_cancer ≠ DatasetId.breast_cancer
    ∧ ((DatasetId.liver_cancer ≠ .breast_cancer →
        ∀ a ∈ (classify (Classifier.mk (fun _ _ => ()) (fun _ _ => []) : Classifier Unit)
            none .liver_cancer [[Value.num 1, Value.num 2]]).2,
          ∃ v, a = YCell.wrap [v])
      ∧ (DatasetId.liver_cancer = .breast_cancer →
        ∀ a ∈ (classify (Classifier.mk (fun _ _ => ()) (fun _ _ => []) : Classifier Unit)
            none .liver_cancer [[Value.num 1, Value.num 2]]).2,
          ∃ v, a = YCell.bare v)) :=
  ⟨by decide,
   classify_actual_shape (Classifier.mk (fun _ _ => ()) (fun _ _ => []))
     none .liver_cancer [[Value.num 1, Value.num 2]]⟩

/-- C6: in a binary computation — the label space passed to `evaluate`
has exactly two distinct values and the actual/predicted sequences draw
from it — if a label never appears in either the predicted or the actual
sequence, the binary metric call succeeds (no error is raised, so none
can surface) and `evaluate` stores precision, recall and F1 equal to 0
for that label. -/
theorem evaluate_absent_label_zero (labels gold pred : List Value)
    (l : Value) (hbin : labels.dedup.length = 2)
    (hg : ∀ v ∈ gold, v ∈ labels) (hp : ∀ v ∈ pred, v ∈ labels)
    (hl : l ∈ labels) (hgl : l ∉ gold) (hpl : l ∉ pred) :
    tryBinary gold pred l = some (0, 0, 0)
    ∧ (l, ((0 : ℚ), (0 : ℚ), (0 : ℚ))) ∈ (evaluate labels gold pred).perLabel := by
  obtain ⟨a, b, hab⟩ := List.length_eq_two.mp hbin
  have hall : ∃ o, ∀ x ∈ presentLabels gold pred, x = o := by
    have hlmem : l = a ∨ l = b := by
      have hld : l ∈ labels.dedup := List.mem_dedup.mpr hl
      rw [hab] at hld
      simpa using hld
    have hx2 : ∀ x ∈ presentLabels gold pred, (x = a ∨ x = b) ∧ x ≠ l := by
      intro x hx
      have hx' : x ∈ gold ++ pred := List.mem_dedup.mp hx
      have hxl : x ≠ l := by
        rintro rfl
        rcases List.mem_append.mp hx' with h | h
        · exact hgl h
        · exact hpl h
      have hxlab : x ∈ labels := by
        rcases List.mem_append.mp hx' with h | h
        · exact hg x h
        · exact hp x h
      have hxd : x ∈ labels.dedup := List.mem_dedup.mpr hxlab
      rw [hab] at hxd
      exact ⟨by simpa using hxd, hxl⟩
    rcases hlmem with rfl | rfl
    · refine ⟨b, fun x hx => ?_⟩
      rcases (hx2 x hx) with ⟨hor, hxl⟩
      rcases hor with rfl | rfl
      · exact absurd rfl hxl
      · rfl
    · refine ⟨a, fun x hx => ?_⟩
      rcases (hx2 x hx) with ⟨hor, hxl⟩
      rcases hor with rfl | rfl
      · rfl
      · exact absurd rfl hxl
  obtain ⟨o, hall⟩ := hall
  have hlen1 : (presentLabels gold pred).length ≤ 1 :=
    nodup_all_eq_length_le_one (List.nodup_dedup _) hall
  have hpp : predPos pred l = 0 := by
    refine List.countP_eq_zero.mpr ?_
    intro x hx
    simp only [decide_eq_true_eq]
    rintro rfl
    exact hpl hx
  have hap : actualPos gold l = 0 := by
    refine List.countP_eq_zero.mpr ?_
    intro x hx
    simp only [decide_eq_true_eq]
    rintro rfl
    exact hgl hx
  have htp : truePos gold pred l = 0 := by
    refine List.countP_eq_zero.mpr ?_
    intro p hpz
    simp only [decide_eq_true_eq, not_and]
    intro _ h2
    exact hpl (h2 ▸ (List.of_mem_zip hpz).2)
  have htry : tryBinary gold pred l = some (0, 0, 0) := by
    unfold tryBinary
    rw [if_pos ⟨by omega, Or.inr hlen1⟩]
    unfold precision_score recall_score f1_score
    rw [htp, hpp, hap]
    norm_num [round2_zero]
  refine ⟨htry, ?_⟩
  have hentry : labelEntry gold pred l = (0, 0, 0) := by
    unfold labelEntry
    rw [htry]
    rfl
  exact List.mem_map.mpr ⟨l, hl, by simp [hentry]⟩

/-- Witness for C6 at a concrete binary label space with an absent label. -/
theorem evaluate_absent_label_zero_witness :
    (([Value.str "A", Value.str "B"] : List Value).dedup.length = 2
      ∧ Value.str "B" ∈ ([Value.str "A", Value.str "B"] : List Value)
      ∧ Value.str "B" ∉ ([Value.str "A"] : List Value))
    ∧ (tryBinary [Value.str "A"] [Value.str "A"] (Value.str "B") = some (0, 0, 0)
      ∧ (Value.str "B", ((0 : ℚ), (0 : ℚ), (0 : ℚ))) ∈
          (evaluate [Value.str "A", Value.str "B"] [Value.str "A"] [Value.str "A"]).perLabel) :=
  ⟨⟨by decide, by decide, by decide⟩,
   evaluate_absent_label_zero [Value.str "A", Value.str "B"] [Value.str "A"]
     [Value.str "A"] (Value.str "B") (by decide)
     (by intro v hv; simp at hv; simp [hv]) (by intro v hv; simp at hv; simp [hv])
     (by decide) (by decide) (by decide)⟩

/-- C5 counterexample: the macro fallback is triggered by the number of
distinct values present in the actual/predicted data, not by the size of
the label space passed to `evaluate`.  With a three-valued label space
whose test data contain only two distinct values, the present labels get
binary positive-class metrics while only the absent label gets the macro
triple — so the label keys do not all hold the same repeated macro
triple. -/
theorem evaluate_multiclass_not_uniform :
    2 < ([Value.num 0, Value.num 1, Value.num 2] : List Value).dedup.length
    ∧ lookupMetric (evaluate [Value.num 0, Value.num 1, Value.num 2]
          [Value.num 0, Value.num 0, Value.num 1]
          [Value.num 0, Value.num 1, Value.num 1]) (Value.num 0)
        ≠ lookupMetric (evaluate [Value.num 0, Value.num 1, Value.num 2]
          [Value.num 0, Value.num 0, Value.num 1]
          [Value.num 0, Value.num 1, Value.num 1]) (Value.num 2) := by
  refine ⟨by decide, ?_⟩
  have e0 : lookupMetric (evaluate [Value.num 0, Value.num 1, Value.num 2]
      [Value.num 0, Value.num 0, Value.num 1]
      [Value.num 0, Value.num 1, Value.num 1]) (Value.num 0)
      = some (labelEntry [Value.num 0, Value.num 0, Value.num 1]
          [Value.num 0, Value.num 1, Value.num 1] (Value.num 0)) := by
    unfold lookupMetric evaluate
    simp only [List.map]
    rw [List.find?_cons_of_pos _ (by norm_num)]
    rfl
  have e2 : lookupMetric (evaluate [Value.num 0, Value.num 1, Value.num 2]
      [Value.num 0, Value.num 0, Value.num 1]
      [Value.num 0, Value.num 1, Value.num 1]) (Value.num 2)
      = some (labelEntry [Value.num 0, Value.num 0, Value.num 1]
          [Value.num 0, Value.num 1, Value.num 1] (Value.num 2)) := by
    unfold lookupMetric evaluate
    simp only [List.map]
    rw [List.find?_cons_of_neg _ (by norm_num), List.find?_cons_of_neg _ (by norm_num),
      List.find?_cons_of_pos _ (by norm_num)]
    rfl
  have v0 : labelEntry [Value.num 0, Value.num 0, Value.num 1]
      [Value.num 0, Value.num 1, Value.num 1] (Value.num 0) = (1, 1/2, 67/100) := by
    simp [labelEntry, tryBinary, presentLabels, List.dedup]
    norm_num [precision_score, recall_score, f1_score, truePos, predPos, actualPos,
      List.countP, List.countP.go, List.zip, List.zipWith, round2, round_eq]
  have v2 : labelEntry [Value.num 0, Value.num 0, Value.num 1]
      [Value.num 0, Value.num 1, Value.num 1] (Value.num 2) = (3/4, 3/4, 67/100) := by
    simp [labelEntry, tryBinary, presentLabels, List.dedup, macroTriple,
      macroPrecision, macroRecall, macroF1, macroAvg]
    norm_num [precision_score, recall_score, f1_score, truePos, predPos, actualPos,
      List.countP, List.countP.go, List.zip, List.zipWith, round2, round_eq]
  rw [e0, e2, v0, v2]
  simp only [ne_eq, Option.some.injEq, Prod.mk.injEq, not_and]
  intro h
  norm_num at h

/-- C5 (amended): when the actual and predicted sequences together
contain more than two distinct values, the binary metric computation
raises for every requested label, the bare `except:` recovers locally
(no error surfaces), and every label key receives the same
macro-averaged precision/recall/F1 triple computed equally over the
classes present. -/
theorem evaluate_multiclass_macro (labels gold pred : List Value)
    (l : Value) (hm : 2 < (presentLabels gold pred).length)
    (hl : l ∈ labels) :
    tryBinary gold pred l = none
    ∧ (l, macroTriple gold pred) ∈ (evaluate labels gold pred).perLabel
    ∧ (∀ l₁ t₁ l₂ t₂, (l₁, t₁) ∈ (evaluate labels gold pred).perLabel →
        (l₂, t₂) ∈ (evaluate labels gold pred).perLabel → t₁ = t₂) := by
  have hnone : ∀ x : Value, tryBinary gold pred x = none := by
    intro x
    have hcond : ¬((presentLabels gold pred).length ≤ 2 ∧
        (x ∈ presentLabels gold pred ∨ (presentLabels gold pred).length ≤ 1)) := by
      rintro ⟨h2, _⟩
      omega
    simp only [tryBinary]
    rw [if_neg hcond]
  have hentry : ∀ x : Value, labelEntry gold pred x = macroTriple gold pred := by
    intro x
    unfold labelEntry
    rw [hnone x]
    rfl
  refine ⟨hnone l, List.mem_map.mpr ⟨l, hl, by simp [hentry]⟩, ?_⟩
  intro l₁ t₁ l₂ t₂ h₁ h₂
  rcases List.mem_map.mp h₁ with ⟨x₁, _, hx₁⟩
  rcases List.mem_map.mp h₂ with ⟨x₂, _, hx₂⟩
  injection hx₁ with e1 e2
  injection hx₂ with e3 e4
  rw [← e2, ← e4, hentry, hentry]

/-- Witness for C5 at a concrete multi-class input. -/
theorem evaluate_multiclass_macro_witness :
    (2 < (presentLabels [Value.str "a", Value.str "b", Value.str "c"]
          [Value.str "a", Value.str "b", Value.str "c"]).length
      ∧ Value.str "a" ∈ ([Value.str "a", Value.str "b", Value.str "c"] : List Value))
    ∧ (tryBinary [Value.str "a", Value.str "b", Value.str "c"]
          [Value.str "a", Value.str "b", Value.str "c"] (Value.str "a") = none
      ∧ (Value.str "a", macroTriple [Value.str "a", Value.str "b", Value.str "c"]
            [Value.str "a", Value.str "b", Value.str "c"]) ∈
          (evaluate [Value.str "a", Value.str "b", Value.str "c"]
            [Value.str "a", Value.str "b", Value.str "c"]
            [Value.str "a", Value.str "b", Value.str "c"]).perLabel
      ∧ (∀ l₁ t₁ l₂ t₂,
          (l₁, t₁) ∈ (evaluate [Value.str "a", Value.str "b", Value.str "c"]
            [Value.str "a", Value.str "b", Value.str "c"]
            [Value.str "a", Value.str "b", Value.str "c"]).perLabel →
          (l₂, t₂) ∈ (evaluate [Value.str "a", Value.str "b", Value.str "c"]
            [Value.str "a", Value.str "b", Value.str "c"]
            [Value.str "a", Value.str "b", Value.str "c"]).perLabel → t₁ = t₂)) :=
  ⟨⟨by decide, by decide⟩,
   evaluate_multiclass_macro [Value.str "a", Value.str "b", Value.str "c"]
     [Value.str "a", Value.str "b", Value.str "c"]
     [Value.str "a", Value.str "b", Value.str "c"] (Value.str "a")
     (by decide) (by decide)⟩

/-- C2 counterexample: the overall accuracy is not rounded.  On a
three-row input with two agreements, `evaluate` stores accuracy `2/3`,
which is not an integer number of hundredths, so not every metric value
in the returned mapping is rounded to 2 decimal places. -/
theorem evaluate_accuracy_not_rounded :
    (evaluate [Value.num 0, Value.num 1]
        [Value.num 0, Value.num 0, Value.num 1]
        [Value.num 0, Value.num 1, Value.num 1]).accuracy = 2 / 3
    ∧ ¬ Is2dp ((evaluate [Value.num 0, Value.num 1]
        [Value.num 0, Value.num 0, Value.num 1]
        [Value.num 0, Value.num 1, Value.num 1]).accuracy) := by
  have hacc : (evaluate [Value.num 0, Value.num 1]
      [Value.num 0, Value.num 0, Value.num 1]
      [Value.num 0, Value.num 1, Value.num 1]).accuracy = 2 / 3 := by
    simp [evaluate, accuracy_score, List.countP, List.countP.go]
  refine ⟨hacc, ?_⟩
  rw [hacc]
  rintro ⟨n, hn⟩
  have h2 : (200 : ℚ) = (n : ℚ) * 3 := by
    field_simp at hn
    linarith
  have h3 : (200 : ℤ) = n * 3 := by exact_mod_cast h2
  omega

/-- C2 (amended): every per-label metric value — each precision, recall
and F1 stored by `evaluate` — is rounded to 2 decimal places, for every
label set and every pair of actual/predicted sequences; the overall
accuracy is stored as the raw (unrounded) accuracy score. -/
theorem evaluate_label_metrics_rounded (labels gold pred : List Value)
    (l : Value) (t : ℚ × ℚ × ℚ)
    (h : (l, t) ∈ (evaluate labels gold pred).perLabel) :
    Is2dp t.1 ∧ Is2dp t.2.1 ∧ Is2dp t.2.2
    ∧ (evaluate labels gold pred).accuracy = accuracy_score gold pred := by
  rcases List.mem_map.mp h with ⟨x, _, hx⟩
  injection hx with e1 e2
  have hshape : ∃ q₁ q₂ q₃, t = (round2 q₁, round2 q₂, round2 q₃) := by
    rw [← e2]
    unfold labelEntry tryBinary macroTriple
    by_cases hc : (presentLabels gold pred).length ≤ 2 ∧
        (x ∈ presentLabels gold pred ∨ (presentLabels gold pred).length ≤ 1)
    · rw [if_pos hc]
      exact ⟨_, _, _, rfl⟩
    · rw [if_neg hc]
      exact ⟨_, _, _, rfl⟩
  rcases hshape with ⟨q₁, q₂, q₃, rfl⟩
  exact ⟨is2dp_round2 q₁, is2dp_round2 q₂, is2dp_round2 q₃, rfl⟩

/-- Witness for C2 at a concrete labelled entry. -/
theorem evaluate_label_metrics_rounded_witness :
    ((Value.str "a", labelEntry [Value.str "a"] [Value.str "a"] (Value.str "a")) ∈
        (evaluate [Value.str "a"] [Value.str "a"] [Value.str "a"]).perLabel)
    ∧ (Is2dp (labelEntry [Value.str "a"] [Value.str "a"] (Value.str "a")).1
      ∧ Is2dp (labelEntry [Value.str "a"] [Value.str "a"] (Value.str "a")).2.1
      ∧ Is2dp (labelEntry [Value.str "a"] [Value.str "a"] (Value.str "a")).2.2
      ∧ (evaluate [Value.str "a"] [Value.str "a"] [Value.str "a"]).accuracy
          = accuracy_score [Value.str "a"] [Value.str "a"]) :=
  ⟨List.mem_map.mpr ⟨Value.str "a", by decide, rfl⟩,
   evaluate_label_metrics_rounded [Value.str "a"] [Value.str "a"] [Value.str "a"]
     (Value.str "a") _ (List.mem_map.mpr ⟨Value.str "a", by decide, rfl⟩)⟩

/-- C1: the per-column fill values of the imputer fitted inside
`classify` are the means of each feature column computed only from the
training rows of the split, and the same fitted means are applied to fill
missing cells in both the train and the test feature matrices; no
imputation parameter depends on any test row (changing rows outside the
train-index set leaves the fitted statistics unchanged). -/
theorem imputer_fit_train_only (X X₂ : Mat) (j : ℕ) (m : ℚ)
    (r : List (Option ℚ))
    (hm : (pipelineMeans X).getD j none = some m)
    (hlen : X₂.length = X.length)
    (hagree : ∀ i ∈ trainIdx 0 X.length, X₂.getD i [] = X.getD i []) :
    (colObs (pipelineTrain X) j ≠ []
      ∧ m * ((colObs (pipelineTrain X) j).length : ℚ)
          = (colObs (pipelineTrain X) j).sum)
    ∧ pipelineImputed X =
        (transform (pipelineMeans X) (pipelineTrain X),
         transform (pipelineMeans X) (pipelineTest X))
    ∧ (r.getD j none = none → m ∈ transformRow (pipelineMeans X) r)
    ∧ pipelineMeans X₂ = pipelineMeans X := by
  have hsome : colMean (pipelineTrain X) j = some m := by
    have h := hm
    unfold pipelineMeans fitMeans at h
    rw [List.getD_eq_getElem?_getD, List.getElem?_map] at h
    by_cases hj : j < ncols (pipelineTrain X)
    · rw [List.getElem?_range hj] at h
      simpa using h
    · rw [List.getElem?_eq_none (by simpa using hj)] at h
      simp at h
  have hmean : colObs (pipelineTrain X) j ≠ []
      ∧ m * ((colObs (pipelineTrain X) j).length : ℚ)
          = (colObs (pipelineTrain X) j).sum := by
    unfold colMean at hsome
    by_cases hobs : colObs (pipelineTrain X) j = []
    · rw [if_pos hobs] at hsome
      exact Option.noConfusion hsome
    · rw [if_neg hobs] at hsome
      refine ⟨hobs, ?_⟩
      have hmval : m = (colObs (pipelineTrain X) j).sum /
          ((colObs (pipelineTrain X) j).length : ℚ) := by
        injection hsome with h'
        exact h'.symm
      have hlen0 : ((colObs (pipelineTrain X) j).length : ℚ) ≠ 0 := by
        rw [Nat.cast_ne_zero]
        intro h0
        exact hobs (List.length_eq_zero.mp h0)
      rw [hmval]
      exact div_mul_cancel₀ _ hlen0
  refine ⟨hmean, rfl, ?_, ?_⟩
  · intro hr
    have hj : j < (pipelineMeans X).length := by
      by_contra hle
      push_neg at hle
      rw [List.getD_eq_getElem?_getD, List.getElem?_eq_none hle] at hm
      exact Option.noConfusion hm
    refine List.mem_filterMap.mpr ⟨j, List.mem_range.mpr hj, ?_⟩
    rw [hm, hr]
    rfl
  · have htrain : pipelineTrain X₂ = pipelineTrain X := by
      unfold pipelineTrain select
      rw [hlen]
      exact List.map_congr_left (fun i hi => by rw [hagree i hi])
    unfold pipelineMeans
    rw [htrain]

/-- Witness for C1 at a concrete two-row feature matrix and a missing
test cell. -/
theorem imputer_fit_train_only_witness :
    ((pipelineMeans ([[some 3], [some 3]] : Mat)).getD 0 none = some 3
      ∧ ([[some 3], [some 3]] : Mat).length = ([[some 3], [some 3]] : Mat).length)
    ∧ ((colObs (pipelineTrain ([[some 3], [some 3]] : Mat)) 0 ≠ []
        ∧ (3 : ℚ) * ((colObs (pipelineTrain ([[some 3], [some 3]] : Mat)) 0).length : ℚ)
            = (colObs (pipelineTrain ([[some 3], [some 3]] : Mat)) 0).sum)
      ∧ pipelineImputed ([[some 3], [some 3]] : Mat) =
          (transform (pipelineMeans ([[some 3], [some 3]] : Mat))
            (pipelineTrain ([[some 3], [some 3]] : Mat)),
           transform (pipelineMeans ([[some 3], [some 3]] : Mat))
            (pipelineTest ([[some 3], [some 3]] : Mat)))
      ∧ (([none] : List (Option ℚ)).getD 0 none = none →
          (3 : ℚ) ∈ transformRow (pipelineMeans ([[some 3], [some 3]] : Mat)) [none])
      ∧ pipelineMeans ([[some 3], [some 3]] : Mat)
          = pipelineMeans ([[some 3], [some 3]] : Mat)) :=
  ⟨⟨by
      have ht : trainIdx 0 2 = [1] := by decide
      simp [pipelineMeans, pipelineTrain, select, fitMeans, ncols, colMean, colObs, ht],
    rfl⟩,
   imputer_fit_train_only [[some 3], [some 3]] [[some 3], [some 3]] 0 3 [none]
     (by
       have ht : trainIdx 0 2 = [1] := by decide
       simp [pipelineMeans, pipelineTrain, select, fitMeans, ncols, colMean, colObs, ht])
     rfl (fun i _ => rfl)⟩
